import Mathlib

/-
Verification of the EventMux routing core against its specification.

The development shallowly embeds the Go sources:
  * core/matcher.go   : DefaultMatcher.Match and its helper matchFrom
  * core/context.go   : eventContext (NewContext, Bind, Ack, Nack, Republish, Set/Get)
  * core/binder.go    : JSONBinder
  * core/router.go    : Router (New, Use, Start guards, Publish, applyMiddleware)
  * broker/registry.go: Register / Create
  * internal/mock     : the broker test double used to observe Publish effects

Go errors are embedded as `Option Err` (none is the nil error); wrapping with
fmt.Errorf("prefix: %w", err) is `Err.wrap "prefix" err`.  The context.Context
argument threaded through the Go API carries only cancellation, which is not
observable in these claims, so it is dropped from the embedding.
-/

namespace EventMux

/-- Go errors: `Err.msg s` is errors.New(s); `Err.wrap p e` is
fmt.Errorf(p ++ ": %w", e), keeping the wrapped cause intact. -/
inductive Err where
  | msg : String → Err
  | wrap : String → Err → Err
deriving Repr, DecidableEq

/-- core/errors.go: ErrNoBroker. -/
def ErrNoBroker : Err := Err.msg "eventmux: broker is nil"

/-- core/errors.go: ErrAlreadyStarted. -/
def ErrAlreadyStarted : Err := Err.msg "eventmux: router already started"

/-- core/errors.go: ErrNoHandler. -/
def ErrNoHandler : Err := Err.msg "eventmux: no handler registered for topic"

/-- Go strings.Split(s, ".") over the character list of s: splitting on a
single-character separator, so the empty string yields [""] and every dot
opens a new (possibly empty) level. -/
def splitDot : List Char → List String
  | [] => [""]
  | c :: cs =>
    if c = '.' then "" :: splitDot cs
    else
      match splitDot cs with
      | [] => [String.mk [c]]
      | w :: ws => String.mk (c :: w.data) :: ws

/-- core/matcher.go matchFrom (the main loop of DefaultMatcher.Match runs the
identical algorithm from position 0): walk pattern levels and topic levels in
lockstep; a final `#` (reached while at least one topic level remains) matches
everything; an interior `#` tries every suffix of the remaining topic levels,
the empty suffix included; `*` consumes exactly one level; any other level
must be equal to the topic level; when either side runs out the match succeeds
only if both are exhausted. -/
def matchFrom : List String → List String → Bool
  | [] => fun ts => ts.isEmpty
  | p :: ps => fun ts =>
    match ts with
    | [] => false
    | t :: ts2 =>
      if p = "#" then
        if ps.isEmpty then true
        else ((t :: ts2).tails).any (matchFrom ps)
      else if p = "*" then matchFrom ps ts2
      else if p = t then matchFrom ps ts2
      else false

/-- core/matcher.go DefaultMatcher.Match: split both strings on "." and run
the level matcher. -/
def DefaultMatcher.Match (pattern topic : String) : Bool :=
  matchFrom (splitDot pattern.data) (splitDot topic.data)

example : DefaultMatcher.Match "orders.created" "orders.created" = true := by decide
example : DefaultMatcher.Match "orders.#" "orders.us.east.created" = true := by decide
example : DefaultMatcher.Match "orders.#" "orders" = false := by decide
example : DefaultMatcher.Match "orders.*.#" "orders.us.east.created" = true := by decide

/-- Values held by the Context key/value store (Go uses `any`; the claims only
need some inhabitants). -/
inductive AnyVal where
  | str : String → AnyVal
  | int : Int → AnyVal
  | bytes : List Nat → AnyVal
deriving Repr, DecidableEq

/-- core.Message (internal/mock/message.go shape): the delivered unit with key,
value and headers, plus the behaviour of its Ack and Nack operations.  The
mock records the calls (Acked/Nacked flags); here ackCalls/nackCalls count
them so that exactly-once delegation is observable. -/
structure Message where
  key : List Nat
  value : List Nat
  headers : List (String × String)
  ackErr : Option Err := none
  nackErr : Option Err := none
  ackCalls : Nat := 0
  nackCalls : Nat := 0
deriving Repr, DecidableEq

/-- Message.Ack of the adapter (mock/message.go): records the call and returns
the configured error. -/
def Message.Ack (m : Message) : Option Err × Message :=
  (m.ackErr, { m with ackCalls := m.ackCalls + 1 })

/-- Message.Nack of the adapter (mock/message.go): records the call and
returns the configured error. -/
def Message.Nack (m : Message) : Option Err × Message :=
  (m.nackErr, { m with nackCalls := m.nackCalls + 1 })

/-- core.Broker as observed through the test double internal/mock/broker.go:
Publish either fails with the configured error (recording nothing) or appends
the (topic, message) pair to the published record. -/
structure MockBroker where
  published : List (String × Message) := []
  publishErr : Option Err := none

/-- mock/broker.go Publish. -/
def MockBroker.Publish (b : MockBroker) (topic : String) (m : Message) :
    Option Err × MockBroker :=
  match b.publishErr with
  | some e => (some e, b)
  | none => (none, { b with published := b.published ++ [(topic, m)] })

/-- core.Binder: the codec outcome on the raw bytes.  `none` means the codec
deserialised successfully into the target; `some e` is the codec failure. -/
def BinderFn : Type := List Nat → Option Err

/-- core/binder.go JSONBinder.Bind: runs json.Unmarshal (abstracted as the
function ju, since the byte-level JSON grammar is outside the claims) and
wraps a failure as fmt.Errorf("json: %w", err). -/
def JSONBinder (ju : List Nat → Option Err) : BinderFn :=
  fun data => (ju data).map (Err.wrap "json")

/-- core/context.go eventContext: the borrowed message, the matched topic
pattern, the (nil-able) broker and binder references, and the private store,
with the Go context.Context cancellation handle dropped. -/
structure EventContext where
  msg : Message
  topic : String
  broker : Option MockBroker
  binder : Option BinderFn
  store : List (String × AnyVal)

/-- core/context.go NewContext: a fresh Context for one delivery, with an
empty store. -/
def NewContext (msg : Message) (topic : String) (b : Option MockBroker)
    (binder : Option BinderFn) : EventContext :=
  { msg := msg, topic := topic, broker := b, binder := binder, store := [] }

/-- eventContext.Set: store a key/value pair (map write, last write wins). -/
def EventContext.Set (c : EventContext) (key : String) (v : AnyVal) : EventContext :=
  { c with store := (key, v) :: c.store.filter (fun kv => !(kv.1 = key)) }

/-- eventContext.Get: look the key up, with a found flag (here Option). -/
def EventContext.Get (c : EventContext) (key : String) : Option AnyVal :=
  (c.store.find? (fun kv => kv.1 = key)).map (fun kv => kv.2)

/-- eventContext.Bind: nil binder gives the no-binder error; otherwise run the
binder on msg.Value() and wrap a codec failure as
fmt.Errorf("eventmux: bind: %w", err). -/
def EventContext.Bind (c : EventContext) : Option Err :=
  match c.binder with
  | none => some (Err.msg "eventmux: no binder configured")
  | some bf =>
    match bf c.msg.value with
    | some e => some (Err.wrap "eventmux: bind" e)
    | none => none

/-- eventContext.Ack: delegate to msg.Ack once; wrap a failure as
fmt.Errorf("eventmux: ack: %w", err). -/
def EventContext.Ack (c : EventContext) : Option Err × EventContext :=
  match c.msg.Ack with
  | (some e, m2) => (some (Err.wrap "eventmux: ack" e), { c with msg := m2 })
  | (none, m2) => (none, { c with msg := m2 })

/-- eventContext.Nack: delegate to msg.Nack once; wrap a failure as
fmt.Errorf("eventmux: nack: %w", err). -/
def EventContext.Nack (c : EventContext) : Option Err × EventContext :=
  match c.msg.Nack with
  | (some e, m2) => (some (Err.wrap "eventmux: nack" e), { c with msg := m2 })
  | (none, m2) => (none, { c with msg := m2 })

/-- eventContext.Republish: nil broker gives ErrNoBroker; otherwise publish
the same underlying message to the given topic, wrapping a failure as
fmt.Errorf("eventmux: republish to %q: %w", topic, err). -/
def EventContext.Republish (c : EventContext) (topic : String) :
    Option Err × EventContext :=
  match c.broker with
  | none => (some ErrNoBroker, c)
  | some b =>
    match b.Publish topic c.msg with
    | (some e, b2) =>
      (some (Err.wrap ("eventmux: republish to \"" ++ topic ++ "\"") e),
       { c with broker := some b2 })
    | (none, b2) => (none, { c with broker := some b2 })

/-- core.Handler, the low-level handler a broker subscription invokes
(the context.Context argument carries only cancellation and is dropped). -/
def Handler : Type := Message → Option Err

/-- core.Middleware over the low-level Handler. -/
def Middleware : Type := Handler → Handler

/-- core.HandlerFunc, the Context-based user handler. -/
def HandlerFunc : Type := EventContext → Option Err

/-- core.MiddlewareFunc over the Context-based handler. -/
def MiddlewareFunc : Type := HandlerFunc → HandlerFunc

/-- core/router.go applyMiddleware: the loop `for i := len(mws)-1; i >= 0;
i--; h = mws[i](h)` applies the last-registered middleware first, so the
result is mws[0](mws[1](...(mws[N-1](h)))); stated over any handler type
since the loop never inspects the handler. -/
def applyMiddleware {α : Type} (h : α) : List (α → α) → α
  | [] => h
  | m :: rest => m (applyMiddleware h rest)

/-- core/router.go Router: broker, registered middleware and routes (the Go
map modelled as the registration list; the claims below do not depend on map
iteration order), and the started flag. -/
structure Router where
  broker : Option MockBroker
  middlewares : List Middleware
  routes : List (String × Handler)
  started : Bool

/-- core/router.go New: a Router bound to the given (possibly nil) broker,
with no routes, no middleware, not started. -/
def Router.New (b : Option MockBroker) : Router :=
  { broker := b, middlewares := [], routes := [], started := false }

/-- core/router.go Use: append to the middleware list. -/
def Router.Use (r : Router) (m : Middleware) : Router :=
  { r with middlewares := r.middlewares ++ [m] }

/-- core/router.go Handle: register (overwrite) the handler for a pattern. -/
def Router.Handle (r : Router) (topic : String) (h : Handler) : Router :=
  { r with routes := (topic, h) :: r.routes.filter (fun kv => !(kv.1 = topic)) }

/-- The outcome of Router.Start: an immediate error, or the list of
subscriptions spawned (one per route, carrying the middleware-wrapped
handler handed to Broker.Subscribe). -/
inductive StartOutcome where
  | err : Err → StartOutcome
  | subscriptions : List (String × Handler) → StartOutcome

/-- core/router.go Start, up to the spawning of subscription goroutines: nil
broker fails with ErrNoBroker, a started router fails with ErrAlreadyStarted,
both leaving the router untouched; otherwise the started flag is set and each
snapshotted route is subscribed with its middleware-wrapped handler. -/
def Router.Start (r : Router) : StartOutcome × Router :=
  match r.broker with
  | none => (StartOutcome.err ErrNoBroker, r)
  | some _ =>
    if r.started then (StartOutcome.err ErrAlreadyStarted, r)
    else
      (StartOutcome.subscriptions
        (r.routes.map (fun pr => (pr.1, applyMiddleware pr.2 r.middlewares))),
       { r with started := true })

/-- The outcome of Router.Publish: in Go, calling a method on a nil Broker
interface value is a nil dereference at runtime. -/
inductive PublishOutcome where
  | nilDereference : PublishOutcome
  | ok : Option Err → MockBroker → PublishOutcome

/-- core/router.go Publish: `return r.broker.Publish(ctx, topic, msg)` with no
nil guard — a nil broker is dereferenced. -/
def Router.Publish (r : Router) (topic : String) (m : Message) : PublishOutcome :=
  match r.broker with
  | none => PublishOutcome.nilDereference
  | some b =>
    match b.Publish topic m with
    | (e, b2) => PublishOutcome.ok e b2

/-- Modelled from the spec: the Context-based Router.Start (the repository's
current router, absent from src/, which holds only the earlier low-level
router; its tests, NewContext and the package re-exports are in src/) supplies
to Broker.Subscribe, for each route, a bridging handler that wraps the
delivered Message into a fresh Context via NewContext with the snapshotted
broker, binder and topic pattern, invokes the middleware-wrapped handler on
it, and returns that handler's error to the broker adapter. -/
def bridgingHandler (b : Option MockBroker) (bf : Option BinderFn)
    (pattern : String) (wrapped : HandlerFunc) : Message → Option Err :=
  fun m => wrapped (NewContext m pattern b bf)

/-- Modelled from the spec: the Context-based Router stores a Binder used for
every delivery's Context, and when none is configured it defaults to the JSON
binder (README and spec section 4.2: default binder is JSON). -/
def routerDefaultBinder (ju : List Nat → Option Err) : BinderFn :=
  JSONBinder ju

/-- broker/registry.go Config. -/
structure Config where
  brokers : List String
  topic : String
  group : String
  extra : List (String × AnyVal)

/-- A registered factory: broker/registry.go Factory returns (Broker, error). -/
def Factory : Type := Config → Option MockBroker × Option Err

/-- The registry's name → factory map. -/
def RegistryMap : Type := String → Option Factory

/-- The initial empty factories map of broker/registry.go. -/
def emptyRegistry : RegistryMap := fun _ => none

/-- broker/registry.go Register: map write, overwriting any previous factory
under the same name. -/
def Register (reg : RegistryMap) (name : String) (f : Factory) : RegistryMap :=
  fun n => if n = name then some f else reg n

/-- broker/registry.go Create: look the name up; unknown names give a nil
broker and fmt.Errorf("eventmux: unknown broker %q", name); otherwise the
factory is applied to the config and its result returned unchanged. -/
def Create (reg : RegistryMap) (name : String) (cfg : Config) :
    Option MockBroker × Option Err :=
  match reg name with
  | none => (none, some (Err.msg ("eventmux: unknown broker \"" ++ name ++ "\"")))
  | some f => f cfg

/-- A two-element middleware stack over trace-producing handlers, used to
observe execution order. -/
def traceMW (name : String) : (Unit → List String) → (Unit → List String) :=
  fun next => fun u => (name ++ ":before") :: next u ++ [name ++ ":after"]

/-- The terminal trace handler. -/
def traceHandler : Unit → List String := fun _ => ["handler"]

/-- A broker value with the record empty and publishing succeeding. -/
def demoBroker : MockBroker := {}

lemma matchFrom_nil_left (ts : List String) : matchFrom [] ts = ts.isEmpty := rfl

lemma matchFrom_nil_right (ps : List String) : matchFrom ps [] = ps.isEmpty := by
  cases ps <;> rfl

lemma matchFrom_length_of_no_hash (ps ts : List String) (hnh : "#" ∉ ps)
    (h : matchFrom ps ts = true) : ps.length = ts.length := by
  induction ps generalizing ts with
  | nil =>
    cases ts with
    | nil => rfl
    | cons t ts2 => simp [matchFrom] at h
  | cons p ps2 ih =>
    cases ts with
    | nil => simp [matchFrom] at h
    | cons t ts2 =>
      have hp : p ≠ "#" := fun he => hnh (by simp [he])
      have hnh2 : "#" ∉ ps2 := fun hm => hnh (List.mem_cons_of_mem _ hm)
      simp only [matchFrom, if_neg hp] at h
      by_cases hs : p = "*"
      · rw [if_pos hs] at h
        simpa using ih ts2 hnh2 h
      · rw [if_neg hs] at h
        by_cases ht : p = t
        · rw [if_pos ht] at h
          simpa using ih ts2 hnh2 h
        · rw [if_neg ht] at h
          exact absurd h (by simp)

/-- C5: DefaultMatcher.Match decides the listed cases exactly as the spec
states, and in general a match requires both level sequences to be fully
consumed: with the pattern exhausted the topic must be empty, with the topic
exhausted the pattern must be empty, and a match of a pattern without `#`
consumes exactly as many topic levels as it has pattern levels. -/
theorem matcher_listed_cases_and_full_consumption :
    DefaultMatcher.Match "orders.created" "orders.created" = true ∧
    DefaultMatcher.Match "orders.*" "orders.created" = true ∧
    DefaultMatcher.Match "orders.*" "orders.us.created" = false ∧
    DefaultMatcher.Match "orders.#" "orders.us.east.created" = true ∧
    DefaultMatcher.Match "#" "a.b.c" = true ∧
    DefaultMatcher.Match "orders.*.#" "orders.us.east.created" = true ∧
    DefaultMatcher.Match "orders.created" "orders" = false ∧
    DefaultMatcher.Match "orders" "orders.created" = false ∧
    (∀ ts, matchFrom [] ts = ts.isEmpty) ∧
    (∀ ps, matchFrom ps [] = ps.isEmpty) ∧
    (∀ ps ts, "#" ∉ ps → matchFrom ps ts = true → ps.length = ts.length) := by
  refine ⟨by decide, by decide, by decide, by decide, by decide, by decide,
    by decide, by decide, matchFrom_nil_left, matchFrom_nil_right,
    matchFrom_length_of_no_hash⟩

/-- C2 counterexample: the claim states that a final `#` matches even when
zero topic levels remain for it, citing Match("orders.#", "orders") == true;
the code returns false there, because the matching loop stops as soon as the
topic levels are exhausted, before the final `#` is examined. -/
theorem matcher_trailing_hash_zero_levels_cex :
    DefaultMatcher.Match "orders.#" "orders" = false := by decide

/-- C2 amended: for a pattern whose final level is `#` and whose earlier
levels contain no `#`, Match succeeds exactly when the topic levels begin
with the pattern prefix (each `*` consuming exactly one level, other levels
equal) AND at least one topic level remains for the final `#`; with zero
levels remaining the match fails. -/
theorem matcher_trailing_hash_amended (ps ts rest : List String)
    (hnh : "#" ∉ ps) (hlen : ps.length = ts.length)
    (hpre : (List.zip ps ts).all (fun pt => pt.1 = "*" || pt.1 = pt.2) = true) :
    matchFrom (ps ++ ["#"]) (ts ++ rest) = !rest.isEmpty := by
  induction ps generalizing ts with
  | nil =>
    have hts : ts = [] := by
      cases ts with
      | nil => rfl
      | cons t ts2 => simp at hlen
    subst hts
    cases rest with
    | nil => rfl
    | cons r rs => rfl
  | cons p ps2 ih =>
    cases ts with
    | nil => simp at hlen
    | cons t ts2 =>
      have hp : p ≠ "#" := fun he => hnh (by simp [he])
      have hnh2 : "#" ∉ ps2 := fun hm => hnh (List.mem_cons_of_mem _ hm)
      have hlen2 : ps2.length = ts2.length := by simpa using hlen
      have hhead : (p = "*" || p = t) = true := by
        simp only [List.zip_cons_cons, List.all_cons, Bool.and_eq_true] at hpre
        exact hpre.1
      have hrest : (List.zip ps2 ts2).all (fun pt => pt.1 = "*" || pt.1 = pt.2) = true := by
        simp only [List.zip_cons_cons, List.all_cons, Bool.and_eq_true] at hpre
        exact hpre.2
      have heq : matchFrom ((p :: ps2) ++ ["#"]) ((t :: ts2) ++ rest)
          = matchFrom (ps2 ++ ["#"]) (ts2 ++ rest) := by
        simp only [List.cons_append, matchFrom, if_neg hp]
        rcases Bool.or_eq_true _ _ |>.mp hhead with hs | ht
        · rw [if_pos (by simpa using hs)]
          rfl
        · by_cases hs2 : p = "*"
          · rw [if_pos hs2]
            rfl
          · rw [if_neg hs2, if_pos (by simpa using ht)]
            rfl
      rw [heq]
      exact ih ts2 hnh2 hlen2 hrest

/-- Witness for the amended C2 statement: prefix ["orders"], one remaining
level gives a match, zero remaining levels gives a failure. -/
theorem matcher_trailing_hash_amended_witness :
    matchFrom (["orders"] ++ ["#"]) (["orders"] ++ ["us"]) = !(["us"] : List String).isEmpty ∧
    matchFrom (["orders"] ++ ["#"]) (["orders"] ++ []) = !([] : List String).isEmpty := by
  constructor
  · exact matcher_trailing_hash_amended ["orders"] ["orders"] ["us"]
      (by decide) (by decide) (by decide)
  · exact matcher_trailing_hash_amended ["orders"] ["orders"] []
      (by decide) (by decide) (by decide)

/-- C3: the router composes middleware by folding from the last registered
wrapper inward — applyMiddleware h [m0, ..., mN-1] equals
m0 (m1 (... (mN-1 h))), Use appends in registration order, and for two trace
middlewares A then B around the terminal handler the observed order is
A-before, B-before, handler, B-after, A-after. -/
theorem middleware_composition_order :
    (∀ (α : Type) (h : α) (mws : List (α → α)),
      applyMiddleware h mws = mws.foldr (fun m k => m k) h) ∧
    (∀ (α : Type) (h : α) (m0 m1 m2 : α → α),
      applyMiddleware h [m0, m1, m2] = m0 (m1 (m2 h))) ∧
    (∀ (r : Router) (m : Middleware),
      (Router.Use r m).middlewares = r.middlewares ++ [m]) ∧
    applyMiddleware traceHandler [traceMW "A", traceMW "B"] ()
      = ["A:before", "B:before", "handler", "B:after", "A:after"] := by
  refine ⟨?_, ?_, ?_, ?_⟩
  · intro α h mws
    induction mws with
    | nil => rfl
    | cons m rest ih => simp [applyMiddleware, ih]
  · intro α h m0 m1 m2
    rfl
  · intro r m
    rfl
  · rfl

/-- C1: for every registered route, the handler supplied to Broker.Subscribe
wraps the delivered Message into a fresh Context — carrying exactly the
snapshotted broker, binder and topic pattern, with an empty store — invokes
the middleware-wrapped handler on it, and returns that handler's error to the
broker adapter unchanged. -/
theorem router_bridging_handler_spec :
    ∀ (b : Option MockBroker) (bf : Option BinderFn) (pattern : String)
      (wrapped : HandlerFunc) (m : Message),
      bridgingHandler b bf pattern wrapped m = wrapped (NewContext m pattern b bf) ∧
      (NewContext m pattern b bf).msg = m ∧
      (NewContext m pattern b bf).topic = pattern ∧
      (NewContext m pattern b bf).broker = b ∧
      (NewContext m pattern b bf).binder = bf ∧
      (NewContext m pattern b bf).store = [] ∧
      (∀ k, EventContext.Get (NewContext m pattern b bf) k = none) := by
  intro b bf pattern wrapped m
  exact ⟨rfl, rfl, rfl, rfl, rfl, rfl, fun k => rfl⟩

/-- C4: Start returns ErrNoBroker for a nil broker and ErrAlreadyStarted for
a second Start, in both cases spawning no subscription (the outcome carries
none) and leaving the router — its routes, middleware, broker and started
flag, hence any previous Start's snapshot — exactly as it was; the two
concrete conjuncts exhibit both failures on explicit routers. -/
theorem router_start_guards :
    (∀ r : Router, r.broker = none →
      Router.Start r = (StartOutcome.err ErrNoBroker, r)) ∧
    (∀ r : Router, r.started = true → r.broker ≠ none →
      Router.Start r = (StartOutcome.err ErrAlreadyStarted, r)) ∧
    Router.Start (Router.New none) = (StartOutcome.err ErrNoBroker, Router.New none) ∧
    Router.Start { Router.New (some demoBroker) with started := true }
      = (StartOutcome.err ErrAlreadyStarted,
         { Router.New (some demoBroker) with started := true }) := by
  refine ⟨?_, ?_, rfl, rfl⟩
  · intro r h
    obtain ⟨br, mws, rts, st⟩ := r
    simp only at h
    subst h
    rfl
  · intro r hs hb
    obtain ⟨br, mws, rts, st⟩ := r
    simp only at hs hb
    subst hs
    cases br with
    | none => exact absurd rfl hb
    | some b => rfl

/-- C6: Republish with a nil broker returns ErrNoBroker; with a bound broker
it records exactly one outbound publish of the same underlying message under
the given topic when publishing succeeds, and wraps the publish failure when
it fails; in every case the underlying message — its ack and nack call counts
included — is left untouched. -/
theorem context_republish_spec :
    ∀ (c : EventContext) (topic : String),
      (c.broker = none → EventContext.Republish c topic = (some ErrNoBroker, c)) ∧
      (∀ b, c.broker = some b → b.publishErr = none →
        EventContext.Republish c topic =
          (none,
           { c with broker := some { b with published := b.published ++ [(topic, c.msg)] } })) ∧
      (∀ b e, c.broker = some b → b.publishErr = some e →
        EventContext.Republish c topic =
          (some (Err.wrap ("eventmux: republish to \"" ++ topic ++ "\"") e), c)) ∧
      (EventContext.Republish c topic).2.msg = c.msg ∧
      (EventContext.Republish c topic).2.msg.ackCalls = c.msg.ackCalls ∧
      (EventContext.Republish c topic).2.msg.nackCalls = c.msg.nackCalls := by
  intro c topic
  obtain ⟨m, tp, br, bi, st⟩ := c
  refine ⟨?_, ?_, ?_, ?_, ?_, ?_⟩
  · intro h
    simp only at h
    subst h
    rfl
  · intro b hb hpe
    simp only at hb
    subst hb
    obtain ⟨pub, pe⟩ := b
    simp only at hpe
    subst hpe
    rfl
  · intro b e hb hpe
    simp only at hb
    subst hb
    obtain ⟨pub, pe⟩ := b
    simp only at hpe
    subst hpe
    rfl
  all_goals
    cases br with
    | none => rfl
    | some b =>
      obtain ⟨pub, pe⟩ := b
      cases pe <;> rfl

/-- C7: Bind fails with the no-binder error when the binder is nil and
otherwise returns exactly the codec outcome on Value(), a failure wrapped
with the bind prefix; the default binder a delivered message's Context gets
when none was configured is the JSON binder, which wraps the json failure. -/
theorem context_bind_spec :
    ∀ (ju : List Nat → Option Err) (c : EventContext),
      (c.binder = none →
        EventContext.Bind c = some (Err.msg "eventmux: no binder configured")) ∧
      (∀ bf, c.binder = some bf →
        EventContext.Bind c = (bf c.msg.value).map (Err.wrap "eventmux: bind")) ∧
      routerDefaultBinder ju = JSONBinder ju ∧
      (∀ data, JSONBinder ju data = (ju data).map (Err.wrap "json")) := by
  intro ju c
  refine ⟨?_, ?_, rfl, fun data => rfl⟩
  · intro h
    simp [EventContext.Bind, h]
  · intro bf h
    cases hv : bf c.msg.value <;> simp [EventContext.Bind, h, hv]

/-- C8: Ack and Nack each delegate to the underlying Message exactly once
(its matching call counter grows by exactly one, the other does not move) and
return the underlying outcome unchanged up to the documented wrapping: nil
stays nil, and an adapter error e becomes the wrapping error whose cause is
e itself. -/
theorem context_ack_nack_delegation :
    ∀ c : EventContext,
      (EventContext.Ack c).2.msg.ackCalls = c.msg.ackCalls + 1 ∧
      (EventContext.Ack c).2.msg.nackCalls = c.msg.nackCalls ∧
      (EventContext.Ack c).1 = (c.msg.ackErr).map (Err.wrap "eventmux: ack") ∧
      (EventContext.Nack c).2.msg.nackCalls = c.msg.nackCalls + 1 ∧
      (EventContext.Nack c).2.msg.ackCalls = c.msg.ackCalls ∧
      (EventContext.Nack c).1 = (c.msg.nackErr).map (Err.wrap "eventmux: nack") := by
  intro c
  refine ⟨?_, ?_, ?_, ?_, ?_, ?_⟩ <;>
    cases hae : c.msg.ackErr <;> cases hne : c.msg.nackErr <;>
      simp [EventContext.Ack, EventContext.Nack, Message.Ack, Message.Nack, hae, hne]

/-- C9: Publish has no nil-broker guard — on a router built by New with a nil
broker (which New permits) every Publish call dereferences the nil broker
instead of returning ErrNoBroker, while Start is the place that checks and
returns ErrNoBroker for the same router. -/
theorem router_publish_nil_broker :
    ∀ (r : Router) (topic : String) (m : Message),
      (r.broker = none →
        Router.Publish r topic m = PublishOutcome.nilDereference ∧
        (∀ e b2, Router.Publish r topic m ≠ PublishOutcome.ok e b2) ∧
        (Router.Start r).1 = StartOutcome.err ErrNoBroker) ∧
      (Router.New none).broker = none ∧
      Router.Publish (Router.New none) topic m = PublishOutcome.nilDereference := by
  intro r topic m
  refine ⟨?_, rfl, rfl⟩
  intro h
  refine ⟨?_, ?_, ?_⟩
  · simp [Router.Publish, h]
  · intro e b2
    simp [Router.Publish, h]
  · simp [Router.Start, h]

/-- A sequence of Register calls applied in order (broker/registry.go is a
map written by each Register call). -/
def applyRegs (reg : RegistryMap) (ops : List (String × Factory)) : RegistryMap :=
  ops.foldl (fun r op => Register r op.1 op.2) reg

lemma applyRegs_lookup_of_other (name : String) (ops : List (String × Factory)) :
    ∀ reg : RegistryMap, (∀ op ∈ ops, op.1 ≠ name) → applyRegs reg ops name = reg name := by
  induction ops with
  | nil => intro reg _; rfl
  | cons o rest ih =>
    intro reg hops
    have h1 : o.1 ≠ name := hops o (List.mem_cons_self _ _)
    have h2 : ∀ op ∈ rest, op.1 ≠ name := fun op hm => hops op (List.mem_cons_of_mem _ hm)
    have : applyRegs reg (o :: rest) = applyRegs (Register reg o.1 o.2) rest := rfl
    rw [this, ih (Register reg o.1 o.2) h2]
    show (if name = o.1 then some o.2 else reg name) = reg name
    exact if_neg (fun he => h1 (Eq.symm he))

/-- C10: the broker factory registry is last-write-wins and total on lookup
failure — after Register(name, f), and after any further Registers for other
names, Create(name, cfg) returns exactly f cfg; a second Register under the
same name replaces the first; and Create for a never-registered name returns
a nil broker with the unknown-broker error. -/
theorem broker_registry_spec :
    ∀ (reg : RegistryMap) (name : String) (f g : Factory) (cfg : Config),
      Create (Register reg name f) name cfg = f cfg ∧
      Create (Register (Register reg name g) name f) name cfg = f cfg ∧
      (∀ ops : List (String × Factory), (∀ op ∈ ops, op.1 ≠ name) →
        Create (applyRegs (Register reg name f) ops) name cfg = f cfg) ∧
      Create emptyRegistry name cfg
        = (none, some (Err.msg ("eventmux: unknown broker \"" ++ name ++ "\""))) ∧
      (reg name = none →
        Create reg name cfg
          = (none, some (Err.msg ("eventmux: unknown broker \"" ++ name ++ "\"")))) := by
  intro reg name f g cfg
  refine ⟨?_, ?_, ?_, rfl, ?_⟩
  · simp [Create, Register]
  · simp [Create, Register]
  · intro ops hops
    have hl : applyRegs (Register reg name f) ops name = Register reg name f name :=
      applyRegs_lookup_of_other name ops (Register reg name f) hops
    simp [Create, hl, Register]
  · intro h
    simp [Create, h]

end EventMux
